import Mathlib

/-!
# Verification of the `flenv` command-line / environment flag parser

Shallow embedding of the Go package `flenv` (files `flag.go` / `parser.go`,
here `src/unnamed/part_000` and `src/unnamed/part_001`).

Modelling conventions:
* Go strings are modelled as `Str := List Char`.  Go's `strings.Compare`
  compares UTF-8 bytes; byte-wise lexicographic order on UTF-8 coincides
  with code-point lexicographic order, so comparing `Char` code points is
  faithful.
* A Go `panic` in configuration code is modelled as `Except.error`.
* `Flag[T].target` is a pointer into caller memory exclusively owned by the
  descriptor; its current contents are modelled by the field `targetVal`,
  and mutation by returning an updated structure.
* The parser keeps both `p.flags` (a slice, insertion ordered) and
  `p.flagIndex` (a map) holding pointers to the same descriptor objects,
  and `registerFlag` is the only writer, always called with the
  descriptor's own name, so the map is exactly "the unique element of
  `p.flags` with that name".  The model therefore keeps only the list and
  performs lookups/updates by first name match.
* The seed pass of `Parser.parse` ranges over the Go map, whose iteration
  order is unspecified; each descriptor is seeded independently, so flag
  state is order independent.  The model iterates in insertion order.
-/

set_option linter.unusedVariables false

deriving instance DecidableEq for Except

namespace Flenv

/-- Go strings, modelled as their list of code points. -/
abbrev Str := List Char

/-- The process environment, a snapshot of `os.LookupEnv`:
an association list from variable names to values. -/
abbrev OsEnv := List (Str × Str)

/-- Go `os.LookupEnv`: first binding of the name, if any. -/
def lookupEnv : OsEnv → Str → Option Str
  | [], _ => none
  | (k, v) :: rest, n => if k = n then some v else lookupEnv rest n

/-- Go `strings.HasPrefix(arg, "--")`, the flag-token test of the tokenizer. -/
def isFlagToken : Str → Bool
  | '-' :: '-' :: _ => true
  | _ => false

/-- Go `strings.TrimPrefix(arg, "--")`. -/
def trimDashes : Str → Str
  | '-' :: '-' :: t => t
  | s => s

/-- Go `strings.Index(arg, "=")` followed by the split `arg[:i], arg[i+1:]`:
splits at the first `=`, or `none` when there is no `=`. -/
def splitEq : Str → Option (Str × Str)
  | [] => none
  | c :: t =>
    if c = '=' then some ([], t)
    else
      match splitEq t with
      | none => none
      | some r => some (c :: r.1, r.2)

/-- Go `strings.Join(args, " ")`. -/
def joinSpace : List Str → Str
  | [] => []
  | [s] => s
  | s :: rest => s ++ ' ' :: joinSpace rest

/-- Whether `Except` holds an error; a Go panic or non-nil error. -/
def isErr {ε α : Type} : Except ε α → Bool
  | .error _ => true
  | .ok _ => false

/-- Whether `Except` holds a value. -/
def isOkE {ε α : Type} : Except ε α → Bool
  | .error _ => false
  | .ok _ => true

/-- One character under Go's `%q` quoting (`strconv.Quote`): printable
ASCII other than quote and backslash passes through; quote, backslash and
the common control characters are escaped.  (Go additionally hex/unicode
escapes other non-printable or non-ASCII characters; the escape shape for
those does not matter for any theorem below, which only ever evaluate the
quote on plain ASCII or go through `escapeStr_plain`.) -/
def escapeChar (c : Char) : Str :=
  if c = '"' then ['\\', '"']
  else if c = '\\' then ['\\', '\\']
  else if c = '\n' then ['\\', 'n']
  else if c = '\t' then ['\\', 't']
  else if c = '\r' then ['\\', 'r']
  else if 32 ≤ c.toNat ∧ c.toNat ≤ 126 then [c]
  else '\\' :: 'u' :: [c]

/-- Go `%q` escaping of a whole string. -/
def escapeStr : Str → Str
  | [] => []
  | c :: t => escapeChar c ++ escapeStr t

/-- Go's `%q`: the escaped text wrapped in double quotes. -/
def quoteGo (s : Str) : Str :=
  '"' :: escapeStr s ++ ['"']

/-- The message of a `strconv.NumError` produced by `strconv.Atoi`:
`strconv.Atoi: parsing %q: <msg>`. -/
def atoiErr (s : Str) (msg : Str) : Str :=
  "strconv.Atoi: parsing ".data ++ quoteGo s ++ ':' :: ' ' :: msg

/-- ASCII decimal digit test, as in `strconv` (byte comparison). -/
def isDigitGo (c : Char) : Bool :=
  '0' ≤ c ∧ c ≤ '9'

/-- Value of a digit string (most significant first), given an accumulator. -/
def digitsVal (acc : Nat) : Str → Nat
  | [] => acc
  | c :: t => digitsVal (acc * 10 + (c.toNat - '0'.toNat)) t

/-- Syntactic check of `strconv.Atoi`/`ParseInt` base 10: a nonempty
all-digit string. -/
def allDigits : Str → Bool
  | [] => false
  | [c] => isDigitGo c
  | c :: t => isDigitGo c && allDigits t

/-- Go `strconv.Atoi`: optional sign, then one or more ASCII digits; the value
must fit a 64-bit `int`.  On failure the returned error is the
`strconv.NumError` message (the raw text is quoted inside it; the flag name
appears nowhere). -/
def atoiGo (s : Str) : Except Str Int :=
  let core : Option Int :=
    match s with
    | '+' :: t => if allDigits t then some (Int.ofNat (digitsVal 0 t)) else none
    | '-' :: t => if allDigits t then some (-Int.ofNat (digitsVal 0 t)) else none
    | t => if allDigits t then some (Int.ofNat (digitsVal 0 t)) else none
  match core with
  | none => .error (atoiErr s "invalid syntax".data)
  | some v =>
    if v < -(2 ^ 63) ∨ 2 ^ 63 - 1 < v then .error (atoiErr s "value out of range".data)
    else .ok v

/-- Go `strconv.ParseBool`: the twelve canonical truthy/falsy spellings. -/
def parseBoolGo (s : Str) : Except Str Bool :=
  if s = "1".data ∨ s = "t".data ∨ s = "T".data ∨ s = "TRUE".data ∨
     s = "true".data ∨ s = "True".data then .ok true
  else if s = "0".data ∨ s = "f".data ∨ s = "F".data ∨ s = "FALSE".data ∨
     s = "false".data ∨ s = "False".data then .ok false
  else .error ("strconv.ParseBool: parsing ".data ++ quoteGo s ++
    ':' :: ' ' :: "invalid syntax".data)

/-- The descriptor `Flag[T]` of `flag.go`.  `targetVal` is the current
contents of the caller memory `*f.target`. -/
structure Flag (T : Type) where
  targetVal : T
  isBool : Bool
  name : Str
  envVarName : Str
  helpMessage : Str
  placeholder : Str
  defaultValue : T
  defaultValueSet : Bool
  required : Bool
  set : Bool
  parseFunc : Str → Except Str T

/-- Go `Flag.Env`: overrides the environment variable name. -/
def Flag.Env {T : Type} (f : Flag T) (n : Str) : Flag T :=
  { f with envVarName := n }

/-- Go `Flag.Placeholder`: sets the display placeholder; panics on a bool flag. -/
def Flag.Placeholder {T : Type} (f : Flag T) (ph : Str) : Except Str (Flag T) :=
  if f.isBool then
    .error "setting placeholder for a bool flag is not possible".data
  else
    .ok { f with placeholder := ph }

/-- Go `Flag.Default`: sets the default value; panics on a bool flag and on a
flag already marked required. -/
def Flag.Default {T : Type} (f : Flag T) (v : T) : Except Str (Flag T) :=
  if f.isBool then
    .error "setting default value for a bool flag is not possible".data
  else if f.required then
    .error "setting default value for a required flag is not possible".data
  else
    .ok { f with defaultValue := v, defaultValueSet := true }

/-- Go `Flag.Required`: marks the flag required; panics on a bool flag and on
a flag already holding a default. -/
def Flag.Required {T : Type} (f : Flag T) : Except Str (Flag T) :=
  if f.isBool then
    .error "making a bool flag required is not possible".data
  else if f.defaultValueSet then
    .error "making a flag with default value required is not possible".data
  else
    .ok { f with required := true }

/-- Go `Flag.isRequired`. -/
def Flag.isRequired {T : Type} (f : Flag T) : Bool := f.required

/-- Go `Flag.isSet`. -/
def Flag.isSet {T : Type} (f : Flag T) : Bool := f.set

/-- Go `Flag.getName`. -/
def Flag.getName {T : Type} (f : Flag T) : Str := f.name

/-- Go `Flag.setValue`: writes through the target pointer and marks `set`. -/
def Flag.setValue {T : Type} (f : Flag T) (val : T) : Flag T :=
  { f with targetVal := val, set := true }

/-- Go `Flag.setValueFromString`: runs `parseFunc`; on error returns the error
unchanged and leaves the flag untouched, on success stores the value. -/
def Flag.setValueFromString {T : Type} (f : Flag T) (s : Str) :
    Flag T × Option Str :=
  match f.parseFunc s with
  | .error err => (f, some err)
  | .ok val => (f.setValue val, none)

/-- Go `Flag.setValueFromEnv`: no-op when the variable is absent, otherwise
`setValueFromString` on its value. -/
def Flag.setValueFromEnv {T : Type} (f : Flag T) (env : OsEnv) :
    Flag T × Option Str :=
  match lookupEnv env f.envVarName with
  | none => (f, none)
  | some val => f.setValueFromString val

/-- Go `Flag.setValueFromDefault`: writes the typed default directly
(bypassing `parseFunc`) when one was configured. -/
def Flag.setValueFromDefault {T : Type} (f : Flag T) : Flag T :=
  if f.defaultValueSet then f.setValue f.defaultValue else f

example : atoiGo "10".data = .ok 10 := by decide
example : isErr (atoiGo "abc".data) = true := by decide
example : parseBoolGo "true".data = .ok true := by decide
example : splitEq "count=5".data = some ("count".data, "5".data) := by decide

/-- The closed value universe used by the registry.  In Go the registry
holds descriptors of different instantiations `Flag[bool]`, `Flag[int]`,
`Flag[string]`, ... behind the interface `flag`; the model erases the type
parameter into this tagged union (the redesign the spec's §9 explicitly
sanctions for languages preferring closed sums).  Duration, float and URL
flags follow the same pattern and add nothing the claims touch. -/
inductive Val : Type
  | b (x : Bool)
  | i (x : Int)
  | s (x : String)
deriving DecidableEq

/-- A descriptor as the registry sees it (the `flag` interface). -/
abbrev DFlag := Flag Val

/-- Go `NewBoolFlag`, erased to `Val`.  `target` is the current contents of
the caller's variable. -/
def NewBoolFlag (target : Bool) (name helpMessage : Str) : DFlag where
  targetVal := .b target
  isBool := true
  name := name
  envVarName := []
  helpMessage := helpMessage
  placeholder := []
  defaultValue := .b false
  defaultValueSet := false
  required := false
  set := false
  parseFunc := fun s =>
    match parseBoolGo s with
    | .error e => .error e
    | .ok v => .ok (.b v)

/-- Go `NewIntFlag`, erased to `Val`. -/
def NewIntFlag (target : Int) (name helpMessage : Str) : DFlag where
  targetVal := .i target
  isBool := false
  name := name
  envVarName := []
  helpMessage := helpMessage
  placeholder := "INT".data
  defaultValue := .i 0
  defaultValueSet := false
  required := false
  set := false
  parseFunc := fun s =>
    match atoiGo s with
    | .error e => .error e
    | .ok v => .ok (.i v)

/-- Go `NewStringFlag`, erased to `Val`; its parse function never fails. -/
def NewStringFlag (target : String) (name helpMessage : Str) : DFlag where
  targetVal := .s target
  isBool := false
  name := name
  envVarName := []
  helpMessage := helpMessage
  placeholder := "STRING".data
  defaultValue := .s ""
  defaultValueSet := false
  required := false
  set := false
  parseFunc := fun s => .ok (.s (String.mk s))

/-- Go `fmt.Errorf("unknown flag: --%s", name)`. -/
def unknownFlagErr (name : Str) : Str :=
  "unknown flag: --".data ++ name

/-- Go `fmt.Errorf("unexpected argument: %s", arg)`. -/
def unexpectedArgErr (arg : Str) : Str :=
  "unexpected argument: ".data ++ arg

/-- Go `fmt.Errorf("unexpected arguments: %s", strings.Join(args, " "))`. -/
def unexpectedArgsErr (args : List Str) : Str :=
  "unexpected arguments: ".data ++ joinSpace args

/-- Go `fmt.Errorf("missing required flag: --%s", name)`. -/
def missingRequiredErr (name : Str) : Str :=
  "missing required flag: --".data ++ name

/-- The state of `Parser` (parser.go).  `helpCalled` / `versionCalled` are
the targets of the auto-registered toggle descriptors and live inside
those descriptors' `targetVal`; `flagIndex` is represented by first-name
lookup in `flags` (see the header comment). -/
structure Parser where
  envVarFormatter : Str → Str
  envVarPrefix : Str
  autoEnv : Bool
  helpFlagName : Str
  appName : Str
  appVersion : Str
  appVersionFlagName : Str
  flags : List DFlag

/-- Functional options of `option.go`. -/
abbrev ParserOpt := Parser → Parser

/-- Go `WithEnvVarPrefix`. -/
def WithEnvVarPrefix (pre : Str) : ParserOpt :=
  fun p => { p with envVarPrefix := pre }

/-- Go `WithEnvVarFormatter`. -/
def WithEnvVarFormatter (f : Str → Str) : ParserOpt :=
  fun p => { p with envVarFormatter := f }

/-- Go `WithoutAutoEnv`. -/
def WithoutAutoEnv : ParserOpt :=
  fun p => { p with autoEnv := false }

/-- Go `WithHelpFlagName`. -/
def WithHelpFlagName (name : Str) : ParserOpt :=
  fun p => { p with helpFlagName := name }

/-- Go `WithAppVersionFlagName`. -/
def WithAppVersionFlagName (name : Str) : ParserOpt :=
  fun p => { p with appVersionFlagName := name }

/-- Go `WithAppVersion`. -/
def WithAppVersion (version : Str) : ParserOpt :=
  fun p => { p with appVersion := version }

/-- Go `WithAppName`. -/
def WithAppName (name : Str) : ParserOpt :=
  fun p => { p with appName := name }

/-- ASCII model of Go's `strings.ToUpper` on one character. -/
def toUpperGo (c : Char) : Char :=
  if 'a' ≤ c ∧ c ≤ 'z' then Char.ofNat (c.toNat - 32) else c

/-- The default environment-name formatter of `New`:
`strings.ReplaceAll(strings.ToUpper(s), "-", "_")`. -/
def defaultEnvVarFormatter (s : Str) : Str :=
  (s.map toUpperGo).map (fun c => if c = '-' then '_' else c)

/-- The `Parser` literal at the top of `New`, before options run. -/
def initialParser : Parser where
  envVarFormatter := defaultEnvVarFormatter
  envVarPrefix := []
  autoEnv := true
  helpFlagName := "help".data
  appName := []
  appVersion := []
  appVersionFlagName := "version".data
  flags := []

/-- Go `Parser.registerFlag`: panics when the name is already registered,
otherwise appends to the ordered sequence (and the index). -/
def Parser.registerFlag (p : Parser) (name : Str) (f : DFlag) :
    Except Str Parser :=
  if p.flags.any (fun g => g.name == name) then
    .error ("flag with name ".data ++ name ++ " is already registered".data)
  else
    .ok { p with flags := p.flags ++ [f] }

/-- Go `New`: applies the options, then auto-registers the help toggle and,
when a version string was configured, the version toggle. -/
def New (opts : List ParserOpt) : Except Str Parser :=
  let p := opts.foldl (fun p o => o p) initialParser
  match p.registerFlag p.helpFlagName
      (NewBoolFlag false p.helpFlagName "Show help message".data) with
  | .error e => .error e
  | .ok p1 =>
    if p1.appVersion = [] then .ok p1
    else
      p1.registerFlag p1.appVersionFlagName
        (NewBoolFlag false p1.appVersionFlagName "Show application version".data)

/-- First descriptor with the given name: the `p.flagIndex[name]` lookup. -/
def findFlag (name : Str) : List DFlag → Option DFlag
  | [] => none
  | f :: fs => if f.name == name then some f else findFlag name fs

/-- Go `Parser.set` on the flag list: route a raw string to the named
descriptor's `setValueFromString`, or report an unknown flag. -/
def setIn (name value : Str) : List DFlag → List DFlag × Option Str
  | [] => ([], some (unknownFlagErr name))
  | f :: fs =>
    if f.name == name then
      let r := f.setValueFromString value
      (r.1 :: fs, r.2)
    else
      let r := setIn name value fs
      (f :: r.1, r.2)

/-- Go `Parser.set`. -/
def Parser.set (p : Parser) (name value : Str) : Parser × Option Str :=
  let r := setIn name value p.flags
  ({ p with flags := r.1 }, r.2)

/-- The seed pass of `Parser.parse`: each descriptor takes its default,
then its environment value; environment parse errors are collected. -/
def seedAll (env : OsEnv) : List DFlag → List DFlag × List Str
  | [] => ([], [])
  | f :: fs =>
    let r := (f.setValueFromDefault).setValueFromEnv env
    let rest := seedAll env fs
    (r.1 :: rest.1, r.2.toList ++ rest.2)

/-- The per-descriptor effect of the seed pass. -/
def seedOne (env : OsEnv) (f : DFlag) : DFlag :=
  ((f.setValueFromDefault).setValueFromEnv env).1

/-- The token loop of `Parser.parse` (parser.go lines 247-291), one case
per branch of the Go `for` body. -/
def parseArgs (flags : List DFlag) : List Str → List DFlag × List Str
  | [] => (flags, [])
  | arg :: args =>
    if isFlagToken arg then
      match trimDashes arg with
      | [] =>
        match args with
        | [] => (flags, [])
        | _ :: _ => (flags, [unexpectedArgsErr args])
      | c :: t =>
        match splitEq (c :: t) with
        | some (k, v) =>
          let r := setIn k v flags
          let rest := parseArgs r.1 args
          (rest.1, r.2.toList ++ rest.2)
        | none =>
          match args with
          | [] =>
            let r := setIn (c :: t) "true".data flags
            (r.1, r.2.toList)
          | next :: after =>
            if isFlagToken next then
              let r := setIn (c :: t) "true".data flags
              let rest := parseArgs r.1 (next :: after)
              (rest.1, r.2.toList ++ rest.2)
            else
              let r := setIn (c :: t) next flags
              let rest := parseArgs r.1 after
              (rest.1, r.2.toList ++ rest.2)
    else
      (flags, [unexpectedArgErr arg])

/-- Go `Parser.parse`: seed pass, then token loop; seed errors come first. -/
def Parser.parse (p : Parser) (env : OsEnv) (args : List Str) :
    Parser × List Str :=
  let seeded := seedAll env p.flags
  let toks := parseArgs seeded.1 args
  ({ p with flags := toks.1 }, seeded.2 ++ toks.2)

/-- Go `Parser.checkRequiredFlags`: one error per required, unset descriptor,
appended while walking `p.flags` in order. -/
def Parser.checkRequiredFlags (p : Parser) : List Str :=
  p.flags.foldl
    (fun errs f =>
      if f.isRequired && !f.isSet then errs ++ [missingRequiredErr f.getName]
      else errs)
    []

/-- Lexicographic order on strings, the order of Go's `strings.Compare`
(byte-wise on UTF-8, which agrees with code-point order). -/
def leStr : Str → Str → Bool
  | [], _ => true
  | _ :: _, [] => false
  | a :: as, b :: bs =>
    if a.toNat < b.toNat then true
    else if b.toNat < a.toNat then false
    else leStr as bs

/-- The comparison `printHelp` hands to `slices.SortStableFunc`. -/
def flagLe (a b : DFlag) : Prop := leStr a.getName b.getName = true

instance flagLeDec : DecidableRel flagLe :=
  fun a b => inferInstanceAs (Decidable (_ = true))

/-- Go `slices.SortStableFunc(p.flags, byName)`: the stable sort by flag
name.  `List.insertionSort` inserts earlier elements before later equal
ones, so it computes exactly the stable sort. -/
def sortFlagsByName (fs : List DFlag) : List DFlag :=
  List.insertionSort flagLe fs

/-- The effect of `Parser.printHelp` on parser state: it stably sorts
`p.flags` by name, in place, before rendering.  The rendered usage text
(an `io.Writer` concern) is out of scope; the state mutation is the part
the claims are about. -/
def Parser.printHelp (p : Parser) : Parser :=
  { p with flags := sortFlagsByName p.flags }

example :
    parseArgs [NewIntFlag 0 "test-flag".data []] ["--test-flag=10".data] =
      ([{ NewIntFlag 0 "test-flag".data [] with targetVal := .i 10, set := true }], []) :=
  rfl

example :
    (parseArgs [NewIntFlag 0 "test-flag".data []] ["--test-flag".data, "abc".data]).2 =
      [atoiErr "abc".data "invalid syntax".data] := by
  decide

example :
    (parseArgs [NewBoolFlag false "test-flag".data []] ["--test-flag".data]) =
      ([{ NewBoolFlag false "test-flag".data [] with targetVal := .b true, set := true }], []) :=
  rfl

example :
    (parseArgs [] ["--".data, "x".data, "y".data]).2 =
      [unexpectedArgsErr ["x".data, "y".data]] := by
  decide

/-! ## Helper lemmas -/

theorem splitEq_of_no_eq {k : Str} (h : '=' ∉ k) : splitEq k = none := by
  induction k with
  | nil => rfl
  | cons c t ih =>
    have hc : ¬ c = '=' := fun e => h (e ▸ List.mem_cons_self c t)
    have ht : splitEq t = none := ih (fun m => h (List.mem_cons_of_mem c m))
    simp [splitEq, hc, ht]

theorem splitEq_append {k : Str} (v : Str) (h : '=' ∉ k) :
    splitEq (k ++ '=' :: v) = some (k, v) := by
  induction k with
  | nil => simp [splitEq]
  | cons c t ih =>
    have hc : ¬ c = '=' := fun e => h (e ▸ List.mem_cons_self c t)
    have ht := ih (fun m => h (List.mem_cons_of_mem c m))
    simp [splitEq, hc, ht]

theorem isFlagToken_dashes (s : Str) : isFlagToken ('-' :: '-' :: s) = true :=
  rfl

theorem trimDashes_dashes (s : Str) : trimDashes ('-' :: '-' :: s) = s :=
  rfl

theorem splitEq_cons_append (c : Char) (t v : Str) (h : '=' ∉ c :: t) :
    splitEq (c :: (t ++ '=' :: v)) = some (c :: t, v) := by
  have h2 := splitEq_append v h
  rwa [List.cons_append] at h2

theorem setValue_name {T : Type} (f : Flag T) (v : T) :
    (f.setValue v).name = f.name := rfl

theorem setValueFromString_name {T : Type} (f : Flag T) (s : Str) :
    (f.setValueFromString s).1.name = f.name := by
  unfold Flag.setValueFromString
  cases h : f.parseFunc s <;> rfl

theorem setValueFromString_parseFunc {T : Type} (f : Flag T) (s : Str) :
    (f.setValueFromString s).1.parseFunc = f.parseFunc := by
  unfold Flag.setValueFromString
  cases h : f.parseFunc s <;> rfl

theorem setValueFromDefault_name {T : Type} (f : Flag T) :
    f.setValueFromDefault.name = f.name := by
  unfold Flag.setValueFromDefault
  split <;> rfl

theorem setValueFromDefault_parseFunc {T : Type} (f : Flag T) :
    f.setValueFromDefault.parseFunc = f.parseFunc := by
  unfold Flag.setValueFromDefault
  split <;> rfl

theorem setValueFromEnv_name {T : Type} (f : Flag T) (env : OsEnv) :
    (f.setValueFromEnv env).1.name = f.name := by
  unfold Flag.setValueFromEnv
  cases h : lookupEnv env f.envVarName with
  | none => rfl
  | some s => exact setValueFromString_name f s

theorem setValueFromEnv_parseFunc {T : Type} (f : Flag T) (env : OsEnv) :
    (f.setValueFromEnv env).1.parseFunc = f.parseFunc := by
  unfold Flag.setValueFromEnv
  cases h : lookupEnv env f.envVarName with
  | none => rfl
  | some s => exact setValueFromString_parseFunc f s

theorem seedOne_name (env : OsEnv) (f : DFlag) :
    (seedOne env f).name = f.name := by
  unfold seedOne
  rw [setValueFromEnv_name, setValueFromDefault_name]

theorem seedOne_parseFunc (env : OsEnv) (f : DFlag) :
    (seedOne env f).parseFunc = f.parseFunc := by
  unfold seedOne
  rw [setValueFromEnv_parseFunc, setValueFromDefault_parseFunc]

/-- The per-flag result of the seed pass when a default is configured and
the environment supplies a value that parses. -/
theorem seedOne_env_wins {env : OsEnv} {f : DFlag} {se : Str} {ve : Val}
    (hd : f.defaultValueSet = true)
    (hl : lookupEnv env f.envVarName = some se)
    (hp : f.parseFunc se = .ok ve) :
    seedOne env f = { f with targetVal := ve, set := true } := by
  obtain ⟨tv, ib, nm, ev, hm, ph, dv, ds, rq, st, pf⟩ := f
  dsimp only at hd hl hp ⊢
  subst hd
  simp [seedOne, Flag.setValueFromDefault, Flag.setValue, Flag.setValueFromEnv,
    hl, Flag.setValueFromString, hp]

/-- The per-flag result of the seed pass when a default is configured and
the environment variable is absent. -/
theorem seedOne_default_only {env : OsEnv} {f : DFlag}
    (hd : f.defaultValueSet = true)
    (hl : lookupEnv env f.envVarName = none) :
    seedOne env f = { f with targetVal := f.defaultValue, set := true } := by
  obtain ⟨tv, ib, nm, ev, hm, ph, dv, ds, rq, st, pf⟩ := f
  dsimp only at hd hl ⊢
  subst hd
  simp [seedOne, Flag.setValueFromDefault, Flag.setValue, Flag.setValueFromEnv, hl]

theorem seedAll_fst (env : OsEnv) (fs : List DFlag) :
    (seedAll env fs).1 = fs.map (seedOne env) := by
  induction fs with
  | nil => rfl
  | cons f fs ih => simp [seedAll, seedOne, ih]

theorem findFlag_map {g : DFlag → DFlag} (hg : ∀ f, (g f).name = f.name)
    (n : Str) (fs : List DFlag) :
    findFlag n (fs.map g) = (findFlag n fs).map g := by
  induction fs with
  | nil => rfl
  | cons f fs ih =>
    by_cases h : f.name = n
    · simp [findFlag, hg, h]
    · simp [findFlag, hg, h, ih]

theorem setIn_of_findFlag_none {n : Str} {fs : List DFlag}
    (h : findFlag n fs = none) (v : Str) :
    setIn n v fs = (fs, some (unknownFlagErr n)) := by
  induction fs with
  | nil => rfl
  | cons f fs ih =>
    by_cases hf : f.name = n
    · simp [findFlag, hf] at h
    · simp [findFlag, hf] at h
      simp [setIn, hf, ih h]

theorem setIn_of_findFlag_some {n : Str} {fs : List DFlag} {f : DFlag}
    (h : findFlag n fs = some f) (v : Str) :
    (setIn n v fs).2 = (f.setValueFromString v).2 ∧
      findFlag n (setIn n v fs).1 = some (f.setValueFromString v).1 := by
  induction fs with
  | nil => simp [findFlag] at h
  | cons g fs ih =>
    by_cases hg : g.name = n
    · simp [findFlag, hg] at h
      subst h
      refine ⟨by simp [setIn, hg], ?_⟩
      simp [setIn, hg, findFlag, setValueFromString_name, hg]
    · simp [findFlag, hg] at h
      have := ih h
      refine ⟨by simp [setIn, hg, this.1], ?_⟩
      simp [setIn, hg, findFlag, this.2]

/-- A failed parse leaves the whole registry untouched and surfaces the
parse function's error. -/
theorem setIn_of_parse_error {n : Str} {fs : List DFlag} {f : DFlag}
    {v e : Str} (h : findFlag n fs = some f)
    (he : f.parseFunc v = .error e) :
    setIn n v fs = (fs, some e) := by
  induction fs with
  | nil => simp [findFlag] at h
  | cons g fs ih =>
    by_cases hg : g.name = n
    · simp [findFlag, hg] at h
      subst h
      simp [setIn, hg, Flag.setValueFromString, he]
    · simp [findFlag, hg] at h
      simp [setIn, hg, ih h]

/-- The loop of `checkRequiredFlags` computes the filter-map over the
registry sequence, errors appended in traversal order. -/
theorem checkRequired_loop (fs : List DFlag) (acc : List Str) :
    fs.foldl
      (fun errs f =>
        if f.isRequired && !f.isSet then errs ++ [missingRequiredErr f.getName]
        else errs)
      acc =
      acc ++ (fs.filter (fun f => f.isRequired && !f.isSet)).map
        (fun f => missingRequiredErr f.getName) := by
  induction fs generalizing acc with
  | nil => simp
  | cons f fs ih =>
    simp only [List.foldl_cons, List.filter_cons]
    by_cases h : (f.isRequired && !f.isSet) = true
    · rw [if_pos h, if_pos h, ih]
      simp
    · rw [if_neg h, if_neg h, ih]

theorem leStr_total (a b : Str) : leStr a b = true ∨ leStr b a = true := by
  induction a generalizing b with
  | nil => left; rfl
  | cons x xs ih =>
    cases b with
    | nil => right; rfl
    | cons y ys =>
      by_cases h1 : x.toNat < y.toNat
      · left; simp [leStr, h1]
      · by_cases h2 : y.toNat < x.toNat
        · right; simp [leStr, h2]
        · rcases ih ys with h | h
          · left; simp [leStr, h1, h2, h]
          · right; simp [leStr, h1, h2, h]

theorem leStr_trans (a b c : Str) (hab : leStr a b = true)
    (hbc : leStr b c = true) : leStr a c = true := by
  induction a generalizing b c with
  | nil => rfl
  | cons x xs ih =>
    cases b with
    | nil => simp [leStr] at hab
    | cons y ys =>
      cases c with
      | nil => simp [leStr] at hbc
      | cons z zs =>
        simp only [leStr] at hab hbc ⊢
        by_cases h1 : x.toNat < y.toNat
        · by_cases h3 : y.toNat < z.toNat
          · have hxz : x.toNat < z.toNat := by omega
            simp [hxz]
          · by_cases h4 : z.toNat < y.toNat
            · rw [if_neg h3, if_pos h4] at hbc
              exact absurd hbc (by simp)
            · have hxz : x.toNat < z.toNat := by omega
              simp [hxz]
        · by_cases h2 : y.toNat < x.toNat
          · rw [if_neg h1, if_pos h2] at hab
            exact absurd hab (by simp)
          · rw [if_neg h1, if_neg h2] at hab
            by_cases h3 : y.toNat < z.toNat
            · by_cases hxz : x.toNat < z.toNat
              · simp [hxz]
              · omega
            · by_cases h4 : z.toNat < y.toNat
              · rw [if_neg h3, if_pos h4] at hbc
                exact absurd hbc (by simp)
              · rw [if_neg h3, if_neg h4] at hbc
                have hxz1 : ¬ x.toNat < z.toNat := by omega
                have hxz2 : ¬ z.toNat < x.toNat := by omega
                rw [if_neg hxz1, if_neg hxz2]
                exact ih ys zs hab hbc

instance flagLeTotal : IsTotal DFlag flagLe :=
  ⟨fun a b => leStr_total a.getName b.getName⟩

instance flagLeTrans : IsTrans DFlag flagLe :=
  ⟨fun a b c => leStr_trans a.getName b.getName c.getName⟩

theorem sortFlags_sorted (fs : List DFlag) :
    List.Sorted flagLe (sortFlagsByName fs) :=
  List.sorted_insertionSort flagLe fs

theorem sortFlags_perm (fs : List DFlag) :
    List.Perm (sortFlagsByName fs) fs :=
  List.perm_insertionSort flagLe fs

/-- A character that `%q` passes through unescaped. -/
def plainChar (c : Char) : Bool :=
  (32 ≤ c.toNat && c.toNat ≤ 126) && !(c == '"') && !(c == '\\')

theorem escapeChar_plain (c : Char) (h : plainChar c = true) :
    escapeChar c = [c] := by
  simp only [plainChar, Bool.and_eq_true, Bool.not_eq_eq_eq_not, Bool.not_true,
    beq_eq_false_iff_ne, ne_eq, decide_eq_true_eq] at h
  obtain ⟨⟨⟨h1, h2⟩, h3⟩, h4⟩ := h
  have hn : ¬ c = '\n' := fun e => absurd h1 (by subst e; decide)
  have ht : ¬ c = '\t' := fun e => absurd h1 (by subst e; decide)
  have hr : ¬ c = '\r' := fun e => absurd h1 (by subst e; decide)
  simp [escapeChar, h3, h4, hn, ht, hr, h1, h2]

theorem escapeStr_plain (s : Str) (h : s.all plainChar = true) :
    escapeStr s = s := by
  induction s with
  | nil => rfl
  | cons c t ih =>
    rw [List.all_cons, Bool.and_eq_true] at h
    rw [escapeStr, escapeChar_plain c h.1, ih h.2]
    rfl

/-- Every error of the `Atoi` model is a `strconv.NumError` message. -/
theorem atoiGo_error_shape {s e : Str} (h : atoiGo s = .error e) :
    e = atoiErr s "invalid syntax".data ∨
      e = atoiErr s "value out of range".data := by
  unfold atoiGo at h
  dsimp only at h
  split at h
  · left
    exact (Except.error.injEq _ _ ▸ h).symm
  · split at h
    · right
      exact (Except.error.injEq _ _ ▸ h).symm
    · exact absurd h (by simp)

/-- For `%q`-plain raw text, the `Atoi` error message contains the raw
text verbatim. -/
theorem atoiErr_contains_raw {s : Str} (m : Str) (h : s.all plainChar = true) :
    List.IsInfix s (atoiErr s m) := by
  refine ⟨"strconv.Atoi: parsing ".data ++ ['"'], '"' :: ':' :: ' ' :: m, ?_⟩
  unfold atoiErr quoteGo
  rw [escapeStr_plain s h]
  simp

/-! ## The claims -/

/-- C6: For every descriptor: configuring a default after required (or
required after default) panics; configuring required or a default on a
boolean-typed descriptor panics; configuring a placeholder on a
boolean-typed descriptor panics; and each of these configuration calls
panics only under those conditions, succeeding otherwise. -/
theorem C6_configuration_constraints {T : Type} (f : Flag T) (v : T)
    (ph : Str) :
    isErr (f.Default v) = (f.isBool || f.required) ∧
    isErr f.Required = (f.isBool || f.defaultValueSet) ∧
    isErr (f.Placeholder ph) = f.isBool := by
  refine ⟨?_, ?_, ?_⟩
  · cases hb : f.isBool <;> cases hr : f.required <;>
      simp [Flag.Default, isErr, hb, hr]
  · cases hb : f.isBool <;> cases hd : f.defaultValueSet <;>
      simp [Flag.Required, isErr, hb, hd]
  · cases hb : f.isBool <;> simp [Flag.Placeholder, isErr, hb]

/-- C7: For every flag and every string rejected by its parseFunc,
set-from-string leaves the flag (its target storage and its set field
included) exactly as it was, and returns the parse error. -/
theorem C7_atomic_on_error {T : Type} (f : Flag T) (s e : Str)
    (h : f.parseFunc s = .error e) :
    f.setValueFromString s = (f, some e) := by
  unfold Flag.setValueFromString
  rw [h]

/-- Witness for C7 at the int flag `count` and the rejected text `abc`. -/
theorem C7_witness :
    (NewIntFlag 0 "count".data []).setValueFromString "abc".data =
      (NewIntFlag 0 "count".data [],
        some (atoiErr "abc".data "invalid syntax".data)) :=
  C7_atomic_on_error (NewIntFlag 0 "count".data []) "abc".data
    (atoiErr "abc".data "invalid syntax".data) (by decide)

/-- C8: `set` is monotone.  `setValue` always raises it; each of the three
source operations raises it exactly when a value is successfully written
(parse ok for string/environment sources, default configured for the
default source) and no operation, a failed parse included, ever lowers
it. -/
theorem C8_set_monotone {T : Type} (f : Flag T) (v : T) (s : Str)
    (env : OsEnv) :
    (f.setValue v).set = true ∧
    (f.setValueFromString s).1.set = (f.set || isOkE (f.parseFunc s)) ∧
    (f.setValueFromDefault).set = (f.set || f.defaultValueSet) ∧
    (f.setValueFromEnv env).1.set =
      (f.set ||
        (match lookupEnv env f.envVarName with
          | none => false
          | some sv => isOkE (f.parseFunc sv))) := by
  refine ⟨rfl, ?_, ?_, ?_⟩
  · unfold Flag.setValueFromString isOkE
    cases h : f.parseFunc s <;> simp [Flag.setValue]
  · unfold Flag.setValueFromDefault
    cases hd : f.defaultValueSet <;> simp [Flag.setValue]
  · unfold Flag.setValueFromEnv
    cases hl : lookupEnv env f.envVarName with
    | none => simp
    | some sv =>
      unfold Flag.setValueFromString isOkE
      cases h : f.parseFunc sv <;> simp [Flag.setValue, h]

/-- C2 counterexample: the int flag `count` with the rejected text `abc`.
Set-from-string returns an error that contains the raw text `abc` but NOT
the flag name `count`, so the error does not "include both the offending
flag's name and the raw text". -/
theorem C2_counterexample :
    ((NewIntFlag 0 "count".data []).setValueFromString "abc".data).2 =
      some (atoiErr "abc".data "invalid syntax".data) ∧
    List.IsInfix "abc".data (atoiErr "abc".data "invalid syntax".data) ∧
    ¬ List.IsInfix "count".data (atoiErr "abc".data "invalid syntax".data) :=
  ⟨by decide, by decide, by decide⟩

/-- C2 (amended): set-from-string returns the parse function's error
verbatim (so the flag name is not added), and for the built-in integer
parse function the error does reference the raw text (whenever the raw
text has no characters `%q` would escape). -/
theorem C2_error_content :
    (∀ (T : Type) (f : Flag T) (s e : Str),
        f.parseFunc s = .error e → (f.setValueFromString s).2 = some e) ∧
    (∀ (s e : Str), s.all plainChar = true → atoiGo s = .error e →
        List.IsInfix s e) := by
  constructor
  · intro T f s e h
    unfold Flag.setValueFromString
    rw [h]
  · intro s e hp h
    rcases atoiGo_error_shape h with he | he <;> subst he <;>
      exact atoiErr_contains_raw _ hp

/-- Witness for C2 at the int flag `count` and the rejected text `abc`. -/
theorem C2_witness :
    ((NewIntFlag 0 "count".data []).setValueFromString "abc".data).2 =
      some (atoiErr "abc".data "invalid syntax".data) ∧
    List.IsInfix "abc".data (atoiErr "abc".data "invalid syntax".data) :=
  ⟨C2_error_content.1 Val (NewIntFlag 0 "count".data []) "abc".data
      (atoiErr "abc".data "invalid syntax".data) (by decide),
    C2_error_content.2 "abc".data (atoiErr "abc".data "invalid syntax".data)
      (by decide) (by decide)⟩

/-- A registry holding one required int flag (built as
`p.Int(&i, n, "").Required()` with environment name `envN` would build
it: required, no default, unset). -/
def reqIntP (n envN : Str) : Parser :=
  { initialParser with
    flags := [{ NewIntFlag 0 n [] with required := true, envVarName := envN }] }

/-- C3: checkRequiredFlags returns exactly one error per required
descriptor whose set flag is still false, in registry insertion order;
and a resolution pass over no tokens, with a required unset flag and no
environment value or default, yields zero parse errors and then exactly
one missing-required error. -/
theorem C3_check_required :
    (∀ p : Parser,
        p.checkRequiredFlags =
          (p.flags.filter (fun f => f.isRequired && !f.isSet)).map
            (fun f => missingRequiredErr f.getName)) ∧
    (∀ n envN : Str,
        ((reqIntP n envN).parse [] []).2 = [] ∧
        ((reqIntP n envN).parse [] []).1.checkRequiredFlags =
          [missingRequiredErr n]) := by
  constructor
  · intro p
    unfold Parser.checkRequiredFlags
    rw [checkRequired_loop]
    rfl
  · intro n envN
    exact ⟨rfl, rfl⟩

/-- Two required flags registered in the order `b`, `a`: a parser state
whose insertion order disagrees with name order. -/
def outOfOrderP : Parser :=
  { initialParser with
    flags := [{ NewIntFlag 0 "b".data [] with required := true },
              { NewIntFlag 0 "a".data [] with required := true }] }

/-- C9: printHelp stably sorts the parser's descriptor sequence in place
by flag name: afterwards the registry is name-sorted (same descriptors, a
permutation), and a subsequent checkRequiredFlags observes sorted order
rather than insertion order — at the concrete registry `[b, a]` the error
order visibly changes, so printHelp is not side-effect free on parser
state. -/
theorem C9_printHelp_mutates :
    (∀ p : Parser, (p.printHelp).flags = sortFlagsByName p.flags) ∧
    (∀ p : Parser, List.Sorted flagLe (p.printHelp).flags) ∧
    (∀ p : Parser, List.Perm (p.printHelp).flags p.flags) ∧
    ((outOfOrderP.printHelp).checkRequiredFlags ≠
        outOfOrderP.checkRequiredFlags ∧
      (outOfOrderP.printHelp).checkRequiredFlags =
        [missingRequiredErr "a".data, missingRequiredErr "b".data] ∧
      outOfOrderP.checkRequiredFlags =
        [missingRequiredErr "b".data, missingRequiredErr "a".data]) := by
  refine ⟨fun p => rfl, fun p => sortFlags_sorted p.flags,
    fun p => sortFlags_perm p.flags, ?_, by decide, by decide⟩
  decide

/-- C10: after `New` with default options, registering any flag named
`help` panics as a duplicate; with a nonempty version string configured,
registering `version` (or `help`) panics likewise, because the help and
version toggles were auto-registered under exactly those names. -/
theorem C10_auto_registered_names :
    (∀ (p : Parser) (g : DFlag),
        New [] = .ok p → isErr (p.registerFlag "help".data g) = true) ∧
    (∀ (v : Str) (p : Parser) (g : DFlag), v ≠ [] →
        New [WithAppVersion v] = .ok p →
        isErr (p.registerFlag "version".data g) = true ∧
        isErr (p.registerFlag "help".data g) = true) := by
  constructor
  · intro p g h
    have h2 :
        Except.ok ({ initialParser with
          flags := [NewBoolFlag false "help".data "Show help message".data] }
            : Parser) = Except.ok p := h
    injection h2 with h2
    subst h2
    rfl
  · intro v p g hv h
    have h3 :
        (if v = [] then
          Except.ok ({ initialParser with
            appVersion := v
            flags := [NewBoolFlag false "help".data "Show help message".data] }
              : Parser)
        else
          Except.ok ({ initialParser with
            appVersion := v
            flags := [NewBoolFlag false "help".data "Show help message".data,
              NewBoolFlag false "version".data
                "Show application version".data] } : Parser)) =
        Except.ok p := h
    rw [if_neg hv] at h3
    injection h3 with h3
    subst h3
    exact ⟨rfl, rfl⟩

/-- Witness for C10: the concrete parsers `New []` and
`New [WithAppVersion "1"]` reject re-registration of `help` / `version`. -/
theorem C10_witness :
    isErr (({ initialParser with
        flags := [NewBoolFlag false "help".data "Show help message".data] }
          : Parser).registerFlag "help".data
            (NewStringFlag "" "x".data [])) = true ∧
    isErr (({ initialParser with
        appVersion := "1".data
        flags := [NewBoolFlag false "help".data "Show help message".data,
          NewBoolFlag false "version".data "Show application version".data] }
          : Parser).registerFlag "version".data
            (NewStringFlag "" "x".data [])) = true :=
  ⟨C10_auto_registered_names.1 _ (NewStringFlag "" "x".data []) rfl,
    (C10_auto_registered_names.2 "1".data _ (NewStringFlag "" "x".data [])
      (by decide) rfl).1⟩

/-- C4: a grammar violation — a token without the `--` marker, or trailing
tokens after a bare `--` — makes the token loop return at once with
exactly one more error and the registry exactly as it stood (no flag named
in a later token is modified); an unknown flag or a failed value parse
instead contributes its error and scanning continues with the next token
(on a parse failure even the registry is left unchanged). -/
theorem C4_halt_vs_continue :
    (∀ (fs : List DFlag) (arg : Str) (rest : List Str),
        isFlagToken arg = false →
        parseArgs fs (arg :: rest) = (fs, [unexpectedArgErr arg])) ∧
    (∀ (fs : List DFlag) (a : Str) (rest : List Str),
        parseArgs fs (['-', '-'] :: a :: rest) =
          (fs, [unexpectedArgsErr (a :: rest)])) ∧
    (∀ (fs : List DFlag) (k v : Str) (rest : List Str),
        findFlag k fs = none → '=' ∉ k →
        parseArgs fs (('-' :: '-' :: (k ++ '=' :: v)) :: rest) =
          ((parseArgs fs rest).1, unknownFlagErr k :: (parseArgs fs rest).2)) ∧
    (∀ (fs : List DFlag) (k v e : Str) (f : DFlag) (rest : List Str),
        findFlag k fs = some f → '=' ∉ k → f.parseFunc v = .error e →
        parseArgs fs (('-' :: '-' :: (k ++ '=' :: v)) :: rest) =
          ((parseArgs fs rest).1, e :: (parseArgs fs rest).2)) := by
  refine ⟨?_, ?_, ?_, ?_⟩
  · intro fs arg rest h
    cases rest with
    | nil => simp [parseArgs, h]
    | cons a as => simp [parseArgs, h]
  · intro fs a rest
    rfl
  · intro fs k v rest hfind hne
    have hset := setIn_of_findFlag_none hfind v
    cases k with
    | nil =>
      cases rest with
      | nil => simp [parseArgs, isFlagToken_dashes, trimDashes_dashes, splitEq, hset]
      | cons a as => simp [parseArgs, isFlagToken_dashes, trimDashes_dashes, splitEq, hset]
    | cons c t =>
      cases rest with
      | nil =>
        simp [parseArgs, isFlagToken_dashes, trimDashes_dashes, splitEq_cons_append c t v hne, hset]
      | cons a as =>
        simp [parseArgs, isFlagToken_dashes, trimDashes_dashes, splitEq_cons_append c t v hne, hset]
  · intro fs k v e f rest hfind hne hpe
    have hset := setIn_of_parse_error hfind hpe
    cases k with
    | nil =>
      cases rest with
      | nil => simp [parseArgs, isFlagToken_dashes, trimDashes_dashes, splitEq, hset]
      | cons a as => simp [parseArgs, isFlagToken_dashes, trimDashes_dashes, splitEq, hset]
    | cons c t =>
      cases rest with
      | nil =>
        simp [parseArgs, isFlagToken_dashes, trimDashes_dashes, splitEq_cons_append c t v hne, hset]
      | cons a as =>
        simp [parseArgs, isFlagToken_dashes, trimDashes_dashes, splitEq_cons_append c t v hne, hset]

/-- Witness for C4: the four behaviours at concrete inputs — a stray
positional token halts, trailing tokens after `--` halt, an unknown
`--nope=1` is collected and scanning continues, and a bad value
`--count=abc` is collected and scanning continues. -/
theorem C4_witness :
    parseArgs [] ["x".data, "--a".data] = ([], [unexpectedArgErr "x".data]) ∧
    parseArgs [] ["--".data, "x".data] =
      ([], [unexpectedArgsErr ["x".data]]) ∧
    parseArgs [] ["--nope=1".data, "--".data] =
      ((parseArgs [] ["--".data]).1,
        unknownFlagErr "nope".data :: (parseArgs [] ["--".data]).2) ∧
    parseArgs [NewIntFlag 0 "count".data []]
        ["--count=abc".data, "--".data] =
      ((parseArgs [NewIntFlag 0 "count".data []] ["--".data]).1,
        atoiErr "abc".data "invalid syntax".data ::
          (parseArgs [NewIntFlag 0 "count".data []] ["--".data]).2) :=
  ⟨C4_halt_vs_continue.1 [] "x".data ["--a".data] (by decide),
    C4_halt_vs_continue.2.1 [] "x".data [],
    C4_halt_vs_continue.2.2.1 [] "nope".data "1".data ["--".data] rfl
      (by decide),
    C4_halt_vs_continue.2.2.2 [NewIntFlag 0 "count".data []] "count".data
      "abc".data (atoiErr "abc".data "invalid syntax".data)
      (NewIntFlag 0 "count".data []) ["--".data] rfl (by decide) (by decide)⟩

/-- C5: a `--name` token without `=`: when it is the last token or the
next token starts with `--`, the loop routes the literal text `true` to
that name's set-from-string (whatever the flag's type); otherwise the
following token is consumed as the value and both tokens are advanced
together — also when the name is unknown, in which case the value token is
still consumed. -/
theorem C5_toggle_or_value :
    (∀ (fs : List DFlag) (k : Str), k ≠ [] → '=' ∉ k →
        parseArgs fs [('-' :: '-' :: k)] =
          ((setIn k "true".data fs).1, (setIn k "true".data fs).2.toList)) ∧
    (∀ (fs : List DFlag) (k next : Str) (rest : List Str),
        k ≠ [] → '=' ∉ k → isFlagToken next = true →
        parseArgs fs (('-' :: '-' :: k) :: next :: rest) =
          ((parseArgs (setIn k "true".data fs).1 (next :: rest)).1,
            (setIn k "true".data fs).2.toList ++
              (parseArgs (setIn k "true".data fs).1 (next :: rest)).2)) ∧
    (∀ (fs : List DFlag) (k next : Str) (rest : List Str),
        k ≠ [] → '=' ∉ k → isFlagToken next = false →
        parseArgs fs (('-' :: '-' :: k) :: next :: rest) =
          ((parseArgs (setIn k next fs).1 rest).1,
            (setIn k next fs).2.toList ++
              (parseArgs (setIn k next fs).1 rest).2)) ∧
    (∀ (fs : List DFlag) (k : Str) (f : DFlag),
        findFlag k fs = some f →
        (setIn k "true".data fs).2 = (f.setValueFromString "true".data).2) ∧
    (∀ (fs : List DFlag) (k next : Str) (rest : List Str),
        findFlag k fs = none → k ≠ [] → '=' ∉ k → isFlagToken next = false →
        parseArgs fs (('-' :: '-' :: k) :: next :: rest) =
          ((parseArgs fs rest).1,
            unknownFlagErr k :: (parseArgs fs rest).2)) := by
  refine ⟨?_, ?_, ?_, ?_, ?_⟩
  · intro fs k hk hne
    cases k with
    | nil => exact absurd rfl hk
    | cons c t =>
      simp [parseArgs, isFlagToken_dashes, trimDashes_dashes, splitEq_of_no_eq hne]
  · intro fs k next rest hk hne hnext
    cases k with
    | nil => exact absurd rfl hk
    | cons c t =>
      simp [parseArgs, isFlagToken_dashes, trimDashes_dashes, splitEq_of_no_eq hne, hnext]
  · intro fs k next rest hk hne hnext
    cases k with
    | nil => exact absurd rfl hk
    | cons c t =>
      simp [parseArgs, isFlagToken_dashes, trimDashes_dashes, splitEq_of_no_eq hne, hnext]
  · intro fs k f hfind
    exact (setIn_of_findFlag_some hfind "true".data).1
  · intro fs k next rest hfind hk hne hnext
    have hset := setIn_of_findFlag_none hfind next
    cases k with
    | nil => exact absurd rfl hk
    | cons c t =>
      simp [parseArgs, isFlagToken_dashes, trimDashes_dashes, splitEq_of_no_eq hne, hnext,
        hset]

/-- Witness for C5: a lone `--verbose` toggles the bool flag with the
literal text `true`; `--verbose --` toggles and continues; `--count 7`
consumes `7` as the value; set-from-string is what a toggle invokes; and
`--nope 7 --` consumes `7` although `nope` is unknown. -/
theorem C5_witness :
    parseArgs [NewBoolFlag false "verbose".data []] ["--verbose".data] =
      ((setIn "verbose".data "true".data
          [NewBoolFlag false "verbose".data []]).1,
        (setIn "verbose".data "true".data
          [NewBoolFlag false "verbose".data []]).2.toList) ∧
    parseArgs [NewBoolFlag false "verbose".data []]
        ["--verbose".data, "--".data] =
      ((parseArgs (setIn "verbose".data "true".data
            [NewBoolFlag false "verbose".data []]).1 ["--".data]).1,
        (setIn "verbose".data "true".data
            [NewBoolFlag false "verbose".data []]).2.toList ++
          (parseArgs (setIn "verbose".data "true".data
            [NewBoolFlag false "verbose".data []]).1 ["--".data]).2) ∧
    parseArgs [NewIntFlag 0 "count".data []] ["--count".data, "7".data] =
      ((parseArgs (setIn "count".data "7".data
            [NewIntFlag 0 "count".data []]).1 []).1,
        (setIn "count".data "7".data
            [NewIntFlag 0 "count".data []]).2.toList ++
          (parseArgs (setIn "count".data "7".data
            [NewIntFlag 0 "count".data []]).1 []).2) ∧
    (setIn "verbose".data "true".data
        [NewBoolFlag false "verbose".data []]).2 =
      ((NewBoolFlag false "verbose".data
        []).setValueFromString "true".data).2 ∧
    parseArgs [] ["--nope".data, "7".data, "--".data] =
      ((parseArgs [] ["--".data]).1,
        unknownFlagErr "nope".data :: (parseArgs [] ["--".data]).2) :=
  ⟨C5_toggle_or_value.1 [NewBoolFlag false "verbose".data []] "verbose".data
      (by decide) (by decide),
    C5_toggle_or_value.2.1 [NewBoolFlag false "verbose".data []]
      "verbose".data "--".data [] (by decide) (by decide) (by decide),
    C5_toggle_or_value.2.2.1 [NewIntFlag 0 "count".data []] "count".data
      "7".data [] (by decide) (by decide) (by decide),
    C5_toggle_or_value.2.2.2.1 [NewBoolFlag false "verbose".data []]
      "verbose".data (NewBoolFlag false "verbose".data []) rfl,
    C5_toggle_or_value.2.2.2.2 [] "nope".data "7".data ["--".data] rfl
      (by decide) (by decide) (by decide)⟩

/-- C1: source precedence for a registered flag after one resolution pass.
With a default, an environment value that parses, and a command-line
assignment that parses all present, the target ends at the command-line
value; with only default and environment value, at the environment value;
with only a default, at the default. -/
theorem C1_precedence :
    (∀ (p : Parser) (env : OsEnv) (f : DFlag) (n se sc : Str) (ve vc : Val),
        findFlag n p.flags = some f →
        f.defaultValueSet = true →
        lookupEnv env f.envVarName = some se →
        f.parseFunc se = .ok ve →
        f.parseFunc sc = .ok vc →
        '=' ∉ n →
        ∃ g, findFlag n
            (p.parse env [('-' :: '-' :: (n ++ '=' :: sc))]).1.flags =
              some g ∧
          g.targetVal = vc) ∧
    (∀ (p : Parser) (env : OsEnv) (f : DFlag) (n se : Str) (ve : Val),
        findFlag n p.flags = some f →
        f.defaultValueSet = true →
        lookupEnv env f.envVarName = some se →
        f.parseFunc se = .ok ve →
        ∃ g, findFlag n (p.parse env []).1.flags = some g ∧
          g.targetVal = ve) ∧
    (∀ (p : Parser) (env : OsEnv) (f : DFlag) (n : Str),
        findFlag n p.flags = some f →
        f.defaultValueSet = true →
        lookupEnv env f.envVarName = none →
        ∃ g, findFlag n (p.parse env []).1.flags = some g ∧
          g.targetVal = f.defaultValue) := by
  refine ⟨?_, ?_, ?_⟩
  · intro p env f n se sc ve vc hfind hdef henv hpe hpc hne
    have hfind1 : findFlag n (seedAll env p.flags).1 = some (seedOne env f) := by
      rw [seedAll_fst, findFlag_map (seedOne_name env) n p.flags, hfind]
      rfl
    have hstep : (seedOne env f).setValueFromString sc =
        ((seedOne env f).setValue vc, none) := by
      unfold Flag.setValueFromString
      rw [seedOne_parseFunc, hpc]
    refine ⟨((seedOne env f).setValueFromString sc).1, ?_, ?_⟩
    · have hred : (parseArgs (seedAll env p.flags).1
          [('-' :: '-' :: (n ++ '=' :: sc))]).1 =
            (setIn n sc (seedAll env p.flags).1).1 := by
        cases n with
        | nil => simp [parseArgs, isFlagToken_dashes, trimDashes_dashes,
            splitEq]
        | cons c t => simp [parseArgs, isFlagToken_dashes, trimDashes_dashes,
            splitEq_cons_append c t sc hne]
      show findFlag n (parseArgs (seedAll env p.flags).1
          [('-' :: '-' :: (n ++ '=' :: sc))]).1 = _
      rw [hred]
      exact (setIn_of_findFlag_some hfind1 sc).2
    · rw [hstep]
      rfl
  · intro p env f n se ve hfind hdef henv hpe
    refine ⟨seedOne env f, ?_, ?_⟩
    · show findFlag n ((seedAll env p.flags).1) = _
      rw [seedAll_fst, findFlag_map (seedOne_name env) n p.flags, hfind]
      rfl
    · rw [seedOne_env_wins hdef henv hpe]
  · intro p env f n hfind hdef henv
    refine ⟨seedOne env f, ?_, ?_⟩
    · show findFlag n ((seedAll env p.flags).1) = _
      rw [seedAll_fst, findFlag_map (seedOne_name env) n p.flags, hfind]
      rfl
    · rw [seedOne_default_only hdef henv]

/-- The int flag `count` with default `1` and environment name `COUNT`
(`p.Int(&i, "count", "").Default(1)` under the default auto-env naming),
and a registry holding only it. -/
def fdCount : DFlag :=
  { NewIntFlag 0 "count".data [] with
    defaultValueSet := true
    defaultValue := .i 1
    envVarName := "COUNT".data }

/-- The registry holding only `fdCount`. -/
def pCount : Parser :=
  { initialParser with flags := [fdCount] }

/-- Witness for C1: with default `1`, environment `COUNT=2` and
command-line `--count=3` the target ends at `3`; dropping the command
line leaves `2`; dropping the environment as well leaves `1`. -/
theorem C1_witness :
    (∃ g, findFlag "count".data
        (pCount.parse [("COUNT".data, "2".data)]
          ["--count=3".data]).1.flags = some g ∧
      g.targetVal = Val.i 3) ∧
    (∃ g, findFlag "count".data
        (pCount.parse [("COUNT".data, "2".data)] []).1.flags = some g ∧
      g.targetVal = Val.i 2) ∧
    (∃ g, findFlag "count".data (pCount.parse [] []).1.flags = some g ∧
      g.targetVal = Val.i 1) :=
  ⟨C1_precedence.1 pCount [("COUNT".data, "2".data)] fdCount "count".data
      "2".data "3".data (Val.i 2) (Val.i 3) rfl rfl rfl rfl rfl (by decide),
    C1_precedence.2.1 pCount [("COUNT".data, "2".data)] fdCount "count".data
      "2".data (Val.i 2) rfl rfl rfl rfl,
    C1_precedence.2.2 pCount [] fdCount "count".data rfl rfl rfl⟩

end Flenv
